/-
Verification of the batch job coordination subsystem (`batch_processor.py`):
job lifecycle state machine, per-file processing with failure isolation,
progress accounting, and result export.

The embedding is shallow: the in-memory job registry (a Python dict keyed by
job id) becomes an insertion-ordered association list without duplicate keys
(dict assignment replaces in place, deletion removes the binding); the
pluggable document engines become functions `String → Except String α`
(`Except.error msg` models a raised exception whose `str(e)` is `msg`); the
per-file result payload is an opaque type parameter `α`.
-/
import Mathlib

/-! ### Decimal rendering of naturals

`create_job` renders job ids as `f"batch_{counter}"`.  Uniqueness of the ids
requires injectivity of the decimal rendering `Nat.repr`, which we prove here
via an explicit big-endian digit list `decDigits` and its evaluation map. -/

/-- Big-endian decimal digit characters of `n`, e.g. `decDigits 120 = ['1','2','0']`. -/
def decDigits (n : Nat) : List Char :=
  if n < 10 then [Nat.digitChar n]
  else decDigits (n / 10) ++ [Nat.digitChar (n % 10)]
  termination_by n
  decreasing_by exact Nat.div_lt_self (by omega) (by omega)

/-- Numeric value of a decimal digit character. -/
def digitVal (c : Char) : Nat := c.toNat - 48

/-- Evaluate a big-endian digit character list back to a natural number. -/
def valOfDigits (l : List Char) : Nat := l.foldl (fun acc c => 10 * acc + digitVal c) 0

/-! ### Data model (`batch_processor.py`) -/

/-- `class BatchStatus(Enum)` — status of a batch job. -/
inductive BatchStatus where
  | pending
  | processing
  | completed
  | failed
  | cancelled
deriving DecidableEq, Repr

/-- `BatchStatus.value` — the string payload of each enum member. -/
def BatchStatus.value : BatchStatus → String
  | .pending => "pending"
  | .processing => "processing"
  | .completed => "completed"
  | .failed => "failed"
  | .cancelled => "cancelled"

/-- A success record appended to `job.results`:
`{'file': basename, 'index': i, 'success': True, 'data': result}`. -/
structure ResultRecord (α : Type) where
  file : String
  index : Nat
  success : Bool
  data : α
deriving DecidableEq

/-- A failure record appended to `job.errors`:
`{'file': basename, 'index': i, 'error': str(e)}`. -/
structure ErrorRecord where
  file : String
  index : Nat
  error : String
deriving DecidableEq

/-- Processing options bag (a Python dict, opaque to the core; modelled as a
string-keyed association list). -/
abbrev JobOptions := List (String × String)

/-- `@dataclass class BatchJob` — one batch processing job. -/
structure BatchJob (α : Type) where
  job_id : String
  job_type : String
  files : List String
  status : BatchStatus
  progress : Nat
  total : Nat
  results : List (ResultRecord α)
  errors : List ErrorRecord
  options : JobOptions
deriving DecidableEq

/-! ### `os.path` helpers used by the coordinator (POSIX semantics) -/

/-- `os.path.basename`: the part of the path after the last `'/'`
(scanning the characters, restarting the collected name at each `'/'`). -/
def basename (p : String) : String :=
  String.mk (p.data.foldl (fun acc c => if c = '/' then [] else acc ++ [c]) [])

/-- Python's `str.rfind` for a single character: index of the last
occurrence, `-1` when absent. -/
def rfindIdx (c : Char) (cs : List Char) : Int :=
  cs.enum.foldl (fun acc q => if q.2 = c then (q.1 : Int) else acc) (-1)

/-- The root part of `os.path.splitext`: everything before the last `'.'`,
provided that dot lies after the last `'/'` and is preceded there by some
non-dot character (so `".bashrc"` keeps its dot). -/
def splitextRoot (p : String) : String :=
  let cs := p.data
  let sepIdx := rfindIdx '/' cs
  let dotIdx := rfindIdx '.' cs
  if dotIdx > sepIdx then
    if cs.enum.any (fun q =>
        decide (sepIdx < (q.1 : Int)) && decide ((q.1 : Int) < dotIdx) && (q.2 != '.')) then
      String.mk (cs.take dotIdx.toNat)
    else p
  else p

/-- `os.path.join` for the two-argument calls in `export_results`: return
`b` when `b` is absolute, drop the separator when `a` is empty or already
ends in `'/'`, else insert `'/'`.  (Looking at the first and last character
through `List.head?`/`List.getLast?` of the character data.) -/
def pathJoin (a b : String) : String :=
  if b.data.head? = some '/' then b
  else if a = "" ∨ a.data.getLast? = some '/' then a ++ b
  else a ++ "/" ++ b

/-- Python's `round(x, 1)` on an exact rational: round to the nearest tenth.
(Python rounds floats with ties-to-even on the binary representation; no
claim below depends on tie behaviour, so exact-rational nearest rounding via
Mathlib's `round` is used.) -/
def round1 (x : ℚ) : ℚ := (round (x * 10) : ℤ) / 10

/-- The `percent` field of a job snapshot:
`round(job.progress / job.total * 100, 1) if job.total > 0 else 0`. -/
def percentOf (progress total : Nat) : ℚ :=
  if 0 < total then round1 ((progress : ℚ) / (total : ℚ) * 100) else 0

/-- The dict returned by `BatchProcessor.get_job`. -/
structure JobSnapshot (α : Type) where
  job_id : String
  job_type : String
  status : String
  progress : Nat
  total : Nat
  percent : ℚ
  results_count : Nat
  errors_count : Nat
  results : List (ResultRecord α)
  errors : List ErrorRecord
deriving DecidableEq

/-- `class BatchProcessor` — the in-memory store: `self._jobs` (a dict,
modelled as an insertion-ordered association list without duplicate keys)
and `self._job_counter`. -/
structure BatchProcessor (α : Type) where
  jobs : List (String × BatchJob α)
  jobCounter : Nat
deriving DecidableEq

namespace BatchProcessor

variable {α : Type}

/-- `BatchProcessor()` — fresh store. -/
def init : BatchProcessor α := ⟨[], 0⟩

/-- Dict lookup `self._jobs.get(job_id)` on the association list. -/
def lookupJob (job_id : String) : List (String × BatchJob α) → Option (BatchJob α)
  | [] => none
  | (k, v) :: rest => if k = job_id then some v else lookupJob job_id rest

def findJob (s : BatchProcessor α) (job_id : String) : Option (BatchJob α) :=
  lookupJob job_id s.jobs

/-- `self._jobs[job_id] = job` — dict assignment: replace the existing
binding in place, else append (dicts preserve insertion order). -/
def storeJob (job_id : String) (j : BatchJob α) :
    List (String × BatchJob α) → List (String × BatchJob α)
  | [] => [(job_id, j)]
  | (k, v) :: rest => if k = job_id then (k, j) :: rest else (k, v) :: storeJob job_id j rest

/-- `del self._jobs[job_id]` — dict deletion removes the key's binding. -/
def removeJob (job_id : String) (l : List (String × BatchJob α)) :
    List (String × BatchJob α) :=
  l.filter (fun p => p.1 != job_id)

/-- `_generate_job_id`: increment the counter and render `f"batch_{n}"`.
Returns the updated store together with the id. -/
def generate_job_id (s : BatchProcessor α) : BatchProcessor α × String :=
  let n := s.jobCounter + 1
  ({ s with jobCounter := n }, "batch_" ++ Nat.repr n)

/-- `create_job(job_type, files, options)`: store a PENDING job, return its
id.  `options or {}` stores the empty dict when `None` is supplied. -/
def create_job (s : BatchProcessor α) (job_type : String) (files : List String)
    (options : Option JobOptions) : BatchProcessor α × String :=
  let p := s.generate_job_id
  let job : BatchJob α :=
    { job_id := p.2
      job_type := job_type
      files := files
      status := .pending
      progress := 0
      total := files.length
      results := []
      errors := []
      options := options.getD [] }
  ({ p.1 with jobs := storeJob p.2 job p.1.jobs }, p.2)

/-- `get_job(job_id)`: read-only snapshot dict, `None` when unknown. -/
def get_job (s : BatchProcessor α) (job_id : String) : Option (JobSnapshot α) :=
  match s.findJob job_id with
  | none => none
  | some job => some
    { job_id := job.job_id
      job_type := job.job_type
      status := job.status.value
      progress := job.progress
      total := job.total
      percent := percentOf job.progress job.total
      results_count := job.results.length
      errors_count := job.errors.length
      results := job.results
      errors := job.errors }

/-- One iteration of the processing loop body for `(i, file_path)`: on
success append a result record, on exception append an error record, then
`job.progress = i + 1` unconditionally. -/
def processFile (run : String → Except String α) (job : BatchJob α)
    (p : Nat × String) : BatchJob α :=
  match run p.2 with
  | .ok r =>
    { job with results := job.results ++ [⟨basename p.2, p.1, true, r⟩], progress := p.1 + 1 }
  | .error e =>
    { job with errors := job.errors ++ [⟨basename p.2, p.1, e⟩], progress := p.1 + 1 }

/-- `for i, file_path in enumerate(job.files): ...` — the whole loop. -/
def runBatchLoop (run : String → Except String α) (job : BatchJob α) : BatchJob α :=
  job.files.enum.foldl (processFile run) job

/-- Common shape of `process_ocr_batch` / `process_structure_batch` /
`process_vl_batch`: guard on existence (`{'error': 'Job not found'}`
modelled as `none`), mark PROCESSING, run the loop, mark COMPLETED, return
the final `get_job` snapshot.  (Line 137 reads
`COMPLETED if not job.errors else COMPLETED` — COMPLETED either way.) -/
def processBatchCore (run : String → Except String α) (s : BatchProcessor α)
    (job_id : String) : BatchProcessor α × Option (JobSnapshot α) :=
  match s.findJob job_id with
  | none => (s, none)
  | some job =>
    let marked : BatchJob α := { job with status := .processing }
    let finished : BatchJob α := { runBatchLoop run marked with status := .completed }
    let s' : BatchProcessor α := { s with jobs := storeJob job_id finished s.jobs }
    (s', s'.get_job job_id)

end BatchProcessor

/-- An OCR engine as the coordinator consumes it: `ocr_engine.detect_text(file_path)`. -/
structure OcrEngine (α : Type) where
  detect_text : String → Except String α

/-- A structure engine as consumed: `structure_engine.parse_document(file_path)`. -/
structure StructureEngine (α : Type) where
  parse_document : String → Except String α

/-- A VL engine as consumed: `vl_engine.parse_document(file_path)`. -/
structure VlEngine (α : Type) where
  parse_document : String → Except String α

namespace BatchProcessor

variable {α : Type}

/-- `process_ocr_batch(job_id, ocr_engine)`. -/
def process_ocr_batch (s : BatchProcessor α) (job_id : String)
    (ocr_engine : OcrEngine α) : BatchProcessor α × Option (JobSnapshot α) :=
  processBatchCore ocr_engine.detect_text s job_id

/-- `process_structure_batch(job_id, structure_engine)`. -/
def process_structure_batch (s : BatchProcessor α) (job_id : String)
    (structure_engine : StructureEngine α) : BatchProcessor α × Option (JobSnapshot α) :=
  processBatchCore structure_engine.parse_document s job_id

/-- `process_vl_batch(job_id, vl_engine)`. -/
def process_vl_batch (s : BatchProcessor α) (job_id : String)
    (vl_engine : VlEngine α) : BatchProcessor α × Option (JobSnapshot α) :=
  processBatchCore vl_engine.parse_document s job_id

/-- `cancel_job(job_id)`: cancel a pending or running job. -/
def cancel_job (s : BatchProcessor α) (job_id : String) : BatchProcessor α × Bool :=
  match s.findJob job_id with
  | none => (s, false)
  | some job =>
    if job.status = .pending ∨ job.status = .processing then
      ({ s with jobs := storeJob job_id { job with status := .cancelled } s.jobs }, true)
    else (s, false)

/-- `delete_job(job_id)`: remove the job from memory. -/
def delete_job (s : BatchProcessor α) (job_id : String) : BatchProcessor α × Bool :=
  if (s.findJob job_id).isSome then ({ s with jobs := removeJob job_id s.jobs }, true)
  else (s, false)

/-- `list_jobs()`: `get_job` projections of all jobs, in key insertion order. -/
def list_jobs (s : BatchProcessor α) : List (Option (JobSnapshot α)) :=
  s.jobs.map (fun p => s.get_job p.1)

end BatchProcessor

/-- The combined JSON document `export_results` writes to
`os.path.join(output_dir, f'{job_id}_results.json')`. -/
structure CombinedDoc (α : Type) where
  job_id : String
  job_type : String
  total_files : Nat
  successful : Nat
  failed : Nat
  results : List (ResultRecord α)
  errors : List ErrorRecord
deriving DecidableEq

/-- The info dict `export_results` returns. -/
structure ExportInfo where
  success : Bool
  output_dir : String
  combined_file : String
  individual_dir : String
  total_exported : Nat
deriving DecidableEq

/-- The observable effect of `export_results(job_id, output_dir)`: the
returned info dict, the combined document with its path, and one
`(path, data)` write per successful result under `individual/`. -/
structure ExportOutcome (α : Type) where
  info : ExportInfo
  combinedPath : String
  combined : CombinedDoc α
  individualWrites : List (String × α)
deriving DecidableEq

namespace BatchProcessor

variable {α : Type}

/-- `export_results(job_id, output_dir)` as data: `none` models the
`{'error': 'Job not found'}` return, where nothing is written.  The
`output_dir=None → tempfile.mkdtemp()` default stays outside the model: the
caller passes the directory explicitly. -/
def export_results (s : BatchProcessor α) (job_id : String) (output_dir : String) :
    Option (ExportOutcome α) :=
  match s.findJob job_id with
  | none => none
  | some job =>
    let combinedPath := pathJoin output_dir (job_id ++ "_results.json")
    let individual_dir := pathJoin output_dir "individual"
    some
      { info :=
        { success := true
          output_dir := output_dir
          combined_file := combinedPath
          individual_dir := individual_dir
          total_exported := job.results.length }
        combinedPath := combinedPath
        combined :=
          { job_id := job.job_id
            job_type := job.job_type
            total_files := job.total
            successful := job.results.length
            failed := job.errors.length
            results := job.results
            errors := job.errors }
        individualWrites := job.results.map (fun r =>
          (pathJoin individual_dir (splitextRoot r.file ++ "_result.json"), r.data)) }

/-- Success records the loop produces for an enumerated file list. -/
def successRecords (run : String → Except String α) (l : List (Nat × String)) :
    List (ResultRecord α) :=
  l.filterMap (fun p =>
    match run p.2 with
    | .ok r => some ⟨basename p.2, p.1, true, r⟩
    | .error _ => none)

/-- Error records the loop produces for an enumerated file list. -/
def errorRecords (run : String → Except String α) (l : List (Nat × String)) :
    List ErrorRecord :=
  l.filterMap (fun p =>
    match run p.2 with
    | .ok _ => none
    | .error e => some ⟨basename p.2, p.1, e⟩)

/-- Final `progress` after folding the loop body over `l`, starting at `p0`. -/
def finalProgress (p0 : Nat) (l : List (Nat × String)) : Nat :=
  l.foldl (fun _ q => q.1 + 1) p0

/-- The job a processing pass stores back: loop output of the
PROCESSING-marked job, re-marked COMPLETED. -/
def finishedJob (run : String → Except String α) (job : BatchJob α) : BatchJob α :=
  { runBatchLoop run { job with status := .processing } with status := .completed }

/-! ### Store operations, reachable stores, and the allocated-id invariant -/

end BatchProcessor

/-- Terminal statuses of the §4.1 state machine. -/
def BatchStatus.terminal (st : BatchStatus) : Prop :=
  st = .completed ∨ st = .failed ∨ st = .cancelled

namespace BatchProcessor

variable {α : Type}

/-- One caller-visible store operation. -/
inductive StoreOp (α : Type) where
  | create (job_type : String) (files : List String) (options : Option JobOptions)
  | processOcr (job_id : String) (ocr_engine : OcrEngine α)
  | processStructure (job_id : String) (structure_engine : StructureEngine α)
  | processVl (job_id : String) (vl_engine : VlEngine α)
  | cancel (job_id : String)
  | delete (job_id : String)
  | getOp (job_id : String)
  | listOp
  | exportOp (job_id : String) (output_dir : String)

/-- Effect of one operation on the store (`get`, `list` and `export` read
the registry without mutating it). -/
def applyOp (s : BatchProcessor α) : StoreOp α → BatchProcessor α
  | .create job_type files options => (s.create_job job_type files options).1
  | .processOcr job_id e => (s.process_ocr_batch job_id e).1
  | .processStructure job_id e => (s.process_structure_batch job_id e).1
  | .processVl job_id e => (s.process_vl_batch job_id e).1
  | .cancel job_id => (s.cancel_job job_id).1
  | .delete job_id => (s.delete_job job_id).1
  | .getOp _ => s
  | .listOp => s
  | .exportOp _ _ => s

/-- Whether the operation is a processing pass over the given job id. -/
def StoreOp.processes : StoreOp α → String → Prop
  | .processOcr jid _, job_id => jid = job_id
  | .processStructure jid _, job_id => jid = job_id
  | .processVl jid _, job_id => jid = job_id
  | _, _ => False

/-- Stores reachable from a fresh `BatchProcessor()` by store operations. -/
inductive Reachable : BatchProcessor α → Prop
  | init : Reachable BatchProcessor.init
  | step {s : BatchProcessor α} (op : StoreOp α) : Reachable s → Reachable (applyOp s op)

/-- The id `_generate_job_id` renders when the incremented counter is `n`. -/
def mkJobId (n : Nat) : String := "batch_" ++ Nat.repr n

/-- Every key of the registry was rendered from some counter value in
`[1, jobCounter]`. -/
def keysAllocated (s : BatchProcessor α) : Prop :=
  ∀ p ∈ s.jobs, ∃ k, 1 ≤ k ∧ k ≤ s.jobCounter ∧ p.1 = mkJobId k

/-- The PENDING job `create_job` constructs. -/
def createdJob (job_id job_type : String) (files : List String)
    (options : Option JobOptions) : BatchJob α :=
  { job_id := job_id
    job_type := job_type
    files := files
    status := .pending
    progress := 0
    total := files.length
    results := []
    errors := []
    options := options.getD [] }

end BatchProcessor

/-! ### Concrete stores used to instantiate the theorems -/

namespace BatchProcessor

/-- An always-succeeding OCR engine over a unit payload. -/
def okEngine : OcrEngine Unit := ⟨fun _ => Except.ok ()⟩

/-- An always-raising OCR engine (`str(e) == "boom"`). -/
def failEngine : OcrEngine Unit := ⟨fun _ => Except.error "boom"⟩

/-- An always-succeeding structure engine. -/
def okStructureEngine : StructureEngine Unit := ⟨fun _ => Except.ok ()⟩

/-- An always-succeeding VL engine. -/
def okVlEngine : VlEngine Unit := ⟨fun _ => Except.ok ()⟩

/-- Store holding one freshly created single-file OCR job `batch_1`. -/
def demoS1 : BatchProcessor Unit :=
  ((BatchProcessor.init : BatchProcessor Unit).create_job "ocr" ["a.png"] none).1

/-- `demoS1` after one processing pass over `batch_1`. -/
def demoS2 : BatchProcessor Unit := (demoS1.process_ocr_batch "batch_1" okEngine).1

/-- `demoS2` after a second processing pass over the same completed job. -/
def demoS3 : BatchProcessor Unit := (demoS2.process_ocr_batch "batch_1" okEngine).1

/-- `demoS1` after cancelling `batch_1`. -/
def demoCancelled : BatchProcessor Unit := (demoS1.cancel_job "batch_1").1

/-- The job record `create_job` stores in `demoS1`. -/
def demoJobPending : BatchJob Unit :=
  { job_id := "batch_1", job_type := "ocr", files := ["a.png"],
    status := .pending, progress := 0, total := 1,
    results := [], errors := [], options := [] }

/-- The `batch_1` record in `demoCancelled`. -/
def demoJobCancelled : BatchJob Unit := { demoJobPending with status := .cancelled }

/-- The `batch_1` record in `demoS2`. -/
def demoJobDone : BatchJob Unit :=
  { demoJobPending with
    status := .completed
    progress := 1
    results := [⟨"a.png", 0, true, ()⟩] }

/-- The `batch_1` record after processing `demoS1` with `failEngine`. -/
def demoJobErrored : BatchJob Unit :=
  { demoJobPending with
    status := .completed
    progress := 1
    errors := [⟨"a.png", 0, "boom"⟩] }

/-- Store with a freshly created job over an empty file list. -/
def demoEmptyS : BatchProcessor Unit :=
  ((BatchProcessor.init : BatchProcessor Unit).create_job "ocr" [] none).1

/-- The job record stored in `demoEmptyS`. -/
def demoJobEmpty : BatchJob Unit :=
  { job_id := "batch_1", job_type := "ocr", files := [],
    status := .pending, progress := 0, total := 0,
    results := [], errors := [], options := [] }

/-- Store holding a completed job with one successful result `invoice.png`. -/
def demoInvS : BatchProcessor Unit :=
  ((((BatchProcessor.init : BatchProcessor Unit).create_job
      "ocr" ["invoice.png"] none).1).process_ocr_batch "batch_1" okEngine).1

/-- The `batch_1` record in `demoInvS`. -/
def demoJobInv : BatchJob Unit :=
  { job_id := "batch_1", job_type := "ocr", files := ["invoice.png"],
    status := .completed, progress := 1, total := 1,
    results := [⟨"invoice.png", 0, true, ()⟩], errors := [], options := [] }

end BatchProcessor

/-! ### Theorems: loop characterisation, registry lemmas, and per-operation effects -/

theorem digitVal_digitChar (d : Nat) (hd : d < 10) :
    digitVal (Nat.digitChar d) = d := by
  interval_cases d <;> rfl

theorem valOfDigits_append_one (l : List Char) (c : Char) :
    valOfDigits (l ++ [c]) = 10 * valOfDigits l + digitVal c := by
  simp [valOfDigits]

theorem valOfDigits_decDigits (n : Nat) : valOfDigits (decDigits n) = n := by
  induction n using Nat.strong_induction_on with
  | _ n ih =>
    by_cases h : n < 10
    · rw [decDigits, if_pos h]
      simp [valOfDigits, digitVal_digitChar n h]
    · rw [decDigits, if_neg h, valOfDigits_append_one,
        ih (n / 10) (Nat.div_lt_self (by omega) (by omega)),
        digitVal_digitChar (n % 10) (Nat.mod_lt _ (by omega))]
      omega

theorem decDigits_injective : Function.Injective decDigits := by
  intro m n h
  have := valOfDigits_decDigits m
  rw [h, valOfDigits_decDigits] at this
  omega

/-- With enough fuel, core's `Nat.toDigitsCore` accumulates exactly the
big-endian decimal digits in front of the accumulator. -/
theorem toDigitsCore_eq_decDigits (n : Nat) :
    ∀ (fuel : Nat) (ds : List Char), n < fuel →
      Nat.toDigitsCore 10 fuel n ds = decDigits n ++ ds := by
  induction n using Nat.strong_induction_on with
  | _ n ih =>
    intro fuel ds hfuel
    match fuel with
    | fuel + 1 =>
      by_cases h : n < 10
      · have hdiv : n / 10 = 0 := Nat.div_eq_of_lt h
        have hstep : Nat.toDigitsCore 10 (fuel + 1) n ds = Nat.digitChar (n % 10) :: ds := by
          rw [Nat.toDigitsCore]
          simp [hdiv]
        rw [hstep, Nat.mod_eq_of_lt h, decDigits, if_pos h]
        rfl
      · have hdiv : ¬ n / 10 = 0 := by
          intro hz
          have hmod : n % 10 < 10 := Nat.mod_lt _ (by omega)
          have := Nat.div_add_mod n 10
          omega
        have hstep : Nat.toDigitsCore 10 (fuel + 1) n ds
            = Nat.toDigitsCore 10 fuel (n / 10) (Nat.digitChar (n % 10) :: ds) := by
          rw [Nat.toDigitsCore]
          simp [hdiv]
        have hfuel' : n / 10 < fuel := by
          have := Nat.div_lt_self (show 0 < n by omega) (show 1 < 10 by omega)
          omega
        have hd : decDigits n = decDigits (n / 10) ++ [Nat.digitChar (n % 10)] := by
          rw [decDigits]
          rw [if_neg h]
        rw [hstep,
          ih (n / 10) (Nat.div_lt_self (by omega) (by omega)) fuel
            (Nat.digitChar (n % 10) :: ds) hfuel',
          hd, List.append_assoc]
        rfl

theorem natRepr_injective : Function.Injective Nat.repr := by
  intro m n h
  have hm : Nat.repr m = (decDigits m).asString := by
    show (Nat.toDigits 10 m).asString = _
    rw [Nat.toDigits, toDigitsCore_eq_decDigits m (m + 1) [] (by omega),
      List.append_nil]
  have hn : Nat.repr n = (decDigits n).asString := by
    show (Nat.toDigits 10 n).asString = _
    rw [Nat.toDigits, toDigitsCore_eq_decDigits n (n + 1) [] (by omega),
      List.append_nil]
  rw [hm, hn] at h
  exact decDigits_injective (by
    have : (decDigits m).asString.data = (decDigits n).asString.data := by rw [h]
    simpa [List.asString] using this)

/-! ### Characterisation of the processing loop and the registry -/

namespace BatchProcessor

variable {α : Type}

theorem foldl_processFile (run : String → Except String α) :
    ∀ (l : List (Nat × String)) (job : BatchJob α),
      l.foldl (processFile run) job =
        { job with
          results := job.results ++ successRecords run l
          errors := job.errors ++ errorRecords run l
          progress := finalProgress job.progress l } := by
  intro l
  induction l with
  | nil => intro job; simp [successRecords, errorRecords, finalProgress]
  | cons x xs ih =>
    intro job
    rw [List.foldl_cons, ih]
    cases hx : run x.2 <;>
      simp [processFile, hx, successRecords, errorRecords, finalProgress,
        List.filterMap_cons]

/-- The multiset of `index` fields across the produced result and error
records is exactly the enumeration interval, each index once. -/
theorem indices_perm (run : String → Except String α) :
    ∀ (fs : List String) (n : Nat),
      ((successRecords run (List.enumFrom n fs)).map ResultRecord.index
        ++ (errorRecords run (List.enumFrom n fs)).map ErrorRecord.index).Perm
        (List.range' n fs.length) := by
  intro fs
  induction fs with
  | nil => intro n; simp [successRecords, errorRecords]
  | cons f rest ih =>
    intro n
    rw [show List.enumFrom n (f :: rest) = (n, f) :: List.enumFrom (n + 1) rest from rfl,
      show List.range' n (f :: rest).length = n :: List.range' (n + 1) rest.length from rfl]
    cases hf : run f with
    | ok r =>
      simp only [successRecords, errorRecords, List.filterMap_cons, hf,
        List.map_cons, List.cons_append]
      exact ((ih (n + 1)).cons n)
    | error e =>
      simp only [successRecords, errorRecords, List.filterMap_cons, hf,
        List.map_cons]
      exact List.perm_middle.trans ((ih (n + 1)).cons n)

/-- Every file contributes exactly one record: success and error counts over
the enumerated files sum to the file count. -/
theorem records_length (run : String → Except String α) (fs : List String) (n : Nat) :
    (successRecords run (List.enumFrom n fs)).length
      + (errorRecords run (List.enumFrom n fs)).length = fs.length := by
  have h := (indices_perm run fs n).length_eq
  simpa using h

theorem finalProgress_enumFrom (fs : List String) :
    ∀ (p0 n : Nat), finalProgress p0 (List.enumFrom n fs)
      = if fs.isEmpty then p0 else n + fs.length := by
  induction fs with
  | nil => intro p0 n; simp [finalProgress]
  | cons f rest ih =>
    intro p0 n
    have hstep : finalProgress p0 (List.enumFrom n (f :: rest))
        = finalProgress (n + 1) (List.enumFrom (n + 1) rest) := rfl
    rw [hstep, ih]
    cases rest
    · simp
    · simp
      omega

/-- Full characterisation of the loop: records are appended after the
existing ones, and `progress` ends at the file count (or keeps its prior
value when there are no files to iterate). -/
theorem runBatchLoop_eq (run : String → Except String α) (job : BatchJob α) :
    runBatchLoop run job =
      { job with
        results := job.results ++ successRecords run (List.enumFrom 0 job.files)
        errors := job.errors ++ errorRecords run (List.enumFrom 0 job.files)
        progress := if job.files.isEmpty then job.progress else job.files.length } := by
  rw [runBatchLoop, show job.files.enum = List.enumFrom 0 job.files from rfl,
    foldl_processFile, finalProgress_enumFrom]
  cases h : job.files.isEmpty <;> simp [h]

theorem lookupJob_storeJob_self (job_id : String) (j : BatchJob α) :
    ∀ l : List (String × BatchJob α), lookupJob job_id (storeJob job_id j l) = some j := by
  intro l
  induction l with
  | nil => simp [storeJob, lookupJob]
  | cons x xs ih =>
    obtain ⟨k, v⟩ := x
    by_cases hk : k = job_id <;> simp [storeJob, lookupJob, hk, ih]

theorem lookupJob_storeJob_other (job_id other : String) (h : other ≠ job_id)
    (j : BatchJob α) :
    ∀ l : List (String × BatchJob α),
      lookupJob other (storeJob job_id j l) = lookupJob other l := by
  intro l
  induction l with
  | nil => simp [storeJob, lookupJob, Ne.symm h]
  | cons x xs ih =>
    obtain ⟨k, v⟩ := x
    by_cases hk : k = job_id
    · subst hk
      simp [storeJob, lookupJob, Ne.symm h]
    · simp [storeJob, lookupJob, hk, ih]

theorem lookupJob_removeJob_self (job_id : String) :
    ∀ l : List (String × BatchJob α), lookupJob job_id (removeJob job_id l) = none := by
  intro l
  induction l with
  | nil => simp [removeJob, lookupJob]
  | cons x xs ih =>
    obtain ⟨k, v⟩ := x
    by_cases hk : k = job_id <;> simp [removeJob, lookupJob, hk, ih] <;>
      simpa [removeJob] using ih

theorem lookupJob_removeJob_other (job_id other : String) (h : other ≠ job_id) :
    ∀ l : List (String × BatchJob α),
      lookupJob other (removeJob job_id l) = lookupJob other l := by
  intro l
  induction l with
  | nil => simp [removeJob, lookupJob]
  | cons x xs ih =>
    obtain ⟨k, v⟩ := x
    by_cases hk : k = job_id
    · have h1 : removeJob job_id ((k, v) :: xs) = removeJob job_id xs := by
        simp [removeJob, List.filter_cons, hk]
      have h2 : lookupJob other ((k, v) :: xs) = lookupJob other xs := by
        have hko : ¬ k = other := by
          rw [hk]
          exact Ne.symm h
        simp [lookupJob, hko]
      rw [h1, h2]
      exact ih
    · have h1 : removeJob job_id ((k, v) :: xs) = (k, v) :: removeJob job_id xs := by
        simp [removeJob, List.filter_cons, hk]
      rw [h1]
      by_cases ho : k = other <;> simp [lookupJob, ho, ih]

theorem processBatchCore_eq_some (run : String → Except String α)
    (s : BatchProcessor α) (job_id : String) (job : BatchJob α)
    (h : s.findJob job_id = some job) :
    (processBatchCore run s job_id).1
      = { s with jobs := storeJob job_id (finishedJob run job) s.jobs } := by
  have h' : lookupJob job_id s.jobs = some job := h
  simp [processBatchCore, findJob, h', finishedJob]

theorem processBatchCore_findJob (run : String → Except String α)
    (s : BatchProcessor α) (job_id : String) (job : BatchJob α)
    (h : s.findJob job_id = some job) :
    (processBatchCore run s job_id).1.findJob job_id = some (finishedJob run job) := by
  rw [processBatchCore_eq_some run s job_id job h]
  exact lookupJob_storeJob_self _ _ _

theorem get_job_eq (s : BatchProcessor α) (job_id : String) (job : BatchJob α)
    (h : s.findJob job_id = some job) :
    s.get_job job_id = some
      { job_id := job.job_id
        job_type := job.job_type
        status := job.status.value
        progress := job.progress
        total := job.total
        percent := percentOf job.progress job.total
        results_count := job.results.length
        errors_count := job.errors.length
        results := job.results
        errors := job.errors } := by
  simp [get_job, h]

theorem mkJobId_injective : Function.Injective mkJobId := by
  intro m n h
  apply natRepr_injective
  have hd := congrArg String.data h
  rw [mkJobId, mkJobId, String.data_append, String.data_append] at hd
  exact String.ext (List.append_cancel_left hd)

theorem lookupJob_some_mem (job_id : String) (j : BatchJob α) :
    ∀ l : List (String × BatchJob α), lookupJob job_id l = some j → (job_id, j) ∈ l := by
  intro l
  induction l with
  | nil => intro h; simp [lookupJob] at h
  | cons x xs ih =>
    obtain ⟨k, v⟩ := x
    intro h
    by_cases hk : k = job_id
    · rw [lookupJob, if_pos hk] at h
      cases h
      rw [hk]
      exact List.mem_cons_self _ _
    · rw [lookupJob, if_neg hk] at h
      exact List.mem_cons_of_mem _ (ih h)

theorem mem_storeJob (job_id : String) (j : BatchJob α) :
    ∀ (l : List (String × BatchJob α)) (p : String × BatchJob α),
      p ∈ storeJob job_id j l → p.1 = job_id ∨ p ∈ l := by
  intro l
  induction l with
  | nil =>
    intro p hp
    rw [storeJob] at hp
    cases hp with
    | head => exact Or.inl rfl
    | tail _ h => cases h
  | cons x xs ih =>
    obtain ⟨k, v⟩ := x
    intro p hp
    by_cases hk : k = job_id
    · rw [storeJob, if_pos hk] at hp
      cases hp with
      | head => exact Or.inl hk
      | tail _ h => exact Or.inr (List.mem_cons_of_mem _ h)
    · rw [storeJob, if_neg hk] at hp
      cases hp with
      | head => exact Or.inr (List.mem_cons_self _ _)
      | tail _ h =>
        cases ih p h with
        | inl h1 => exact Or.inl h1
        | inr h2 => exact Or.inr (List.mem_cons_of_mem _ h2)

theorem mem_removeJob (job_id : String) (l : List (String × BatchJob α))
    (p : String × BatchJob α) (hp : p ∈ removeJob job_id l) : p ∈ l :=
  List.mem_of_mem_filter hp

theorem keysAllocated_storeExisting (s : BatchProcessor α) (jid : String)
    (job j' : BatchJob α) (hl : s.findJob jid = some job) (h : keysAllocated s) :
    keysAllocated { s with jobs := storeJob jid j' s.jobs } := by
  intro p hp
  simp only at hp
  cases mem_storeJob _ _ _ p hp with
  | inl h1 =>
    obtain ⟨k, hk1, hk2, hk3⟩ := h (jid, job) (lookupJob_some_mem _ _ _ hl)
    exact ⟨k, hk1, hk2, by rw [h1]; exact hk3⟩
  | inr h2 => exact h p h2

theorem keysAllocated_remove (s : BatchProcessor α) (jid : String)
    (h : keysAllocated s) :
    keysAllocated { s with jobs := removeJob jid s.jobs } := by
  intro p hp
  exact h p (mem_removeJob _ _ _ hp)

theorem keysAllocated_processBatchCore (run : String → Except String α)
    (s : BatchProcessor α) (jid : String) (h : keysAllocated s) :
    keysAllocated (processBatchCore run s jid).1 := by
  cases hl : s.findJob jid with
  | none =>
    rw [show (processBatchCore run s jid).1 = s from by
      simp [processBatchCore, hl]]
    exact h
  | some job =>
    rw [processBatchCore_eq_some run s jid job hl]
    exact keysAllocated_storeExisting s jid job _ hl h

theorem keysAllocated_applyOp (s : BatchProcessor α) (op : StoreOp α)
    (h : keysAllocated s) : keysAllocated (applyOp s op) := by
  cases op with
  | create job_type files options =>
    intro p hp
    simp only [applyOp, create_job, generate_job_id] at hp ⊢
    cases mem_storeJob _ _ _ p hp with
    | inl h1 => exact ⟨s.jobCounter + 1, by omega, by omega, h1⟩
    | inr h2 =>
      obtain ⟨k, hk1, hk2, hk3⟩ := h p h2
      exact ⟨k, hk1, by omega, hk3⟩
  | processOcr jid e => exact keysAllocated_processBatchCore _ s jid h
  | processStructure jid e => exact keysAllocated_processBatchCore _ s jid h
  | processVl jid e => exact keysAllocated_processBatchCore _ s jid h
  | cancel jid =>
    cases hl : s.findJob jid with
    | none =>
      rw [show applyOp s (.cancel jid) = s from by
        simp [applyOp, cancel_job, hl]]
      exact h
    | some job =>
      by_cases hc : job.status = BatchStatus.pending ∨ job.status = BatchStatus.processing
      · rw [show applyOp s (.cancel jid)
            = { s with jobs := storeJob jid { job with status := .cancelled } s.jobs } from by
          simp [applyOp, cancel_job, hl, hc]]
        exact keysAllocated_storeExisting s jid job _ hl h
      · rw [show applyOp s (.cancel jid) = s from by
          simp [applyOp, cancel_job, hl, hc]]
        exact h
  | delete jid =>
    by_cases hd : (s.findJob jid).isSome
    · rw [show applyOp s (.delete jid)
          = { s with jobs := removeJob jid s.jobs } from by
        simp [applyOp, delete_job, hd]]
      exact keysAllocated_remove s jid h
    · rw [show applyOp s (.delete jid) = s from by
        simp [applyOp, delete_job, hd]]
      exact h
  | getOp jid => exact h
  | listOp => exact h
  | exportOp jid d => exact h

theorem reachable_keysAllocated (s : BatchProcessor α) (h : Reachable s) :
    keysAllocated s := by
  induction h with
  | init => intro p hp; cases hp
  | step op _ ih => exact keysAllocated_applyOp _ op ih

/-- In a store whose keys are all allocated, the id the next `create_job`
will render is not yet a key. -/
theorem fresh_id_not_found (s : BatchProcessor α) (h : keysAllocated s) :
    s.findJob (mkJobId (s.jobCounter + 1)) = none := by
  cases hl : s.findJob (mkJobId (s.jobCounter + 1)) with
  | none => rfl
  | some j =>
    obtain ⟨k, hk1, hk2, hk3⟩ := h _ (lookupJob_some_mem _ _ _ hl)
    have := mkJobId_injective hk3.symm
    omega

/-! ### Effect of each operation on an individual job's binding -/

theorem create_job_eq (s : BatchProcessor α) (job_type : String)
    (files : List String) (options : Option JobOptions) :
    s.create_job job_type files options
      = ({ jobs := storeJob (mkJobId (s.jobCounter + 1))
              (createdJob (mkJobId (s.jobCounter + 1)) job_type files options)
              s.jobs,
           jobCounter := s.jobCounter + 1 },
         mkJobId (s.jobCounter + 1)) := rfl

theorem processBatchCore_eq_none (run : String → Except String α)
    (s : BatchProcessor α) (jid : String) (hl : s.findJob jid = none) :
    processBatchCore run s jid = (s, none) := by
  have h' : lookupJob jid s.jobs = none := hl
  simp [processBatchCore, findJob, h']

theorem findJob_create_of_allocated (s : BatchProcessor α) (hA : keysAllocated s)
    (job_type : String) (files : List String) (options : Option JobOptions)
    (job_id : String) (j : BatchJob α) (hj : s.findJob job_id = some j) :
    ((s.create_job job_type files options).1).findJob job_id = some j := by
  obtain ⟨k, hk1, hk2, hk3⟩ := hA _ (lookupJob_some_mem _ _ _ hj)
  have hk3' : job_id = mkJobId k := hk3
  have hne : job_id ≠ mkJobId (s.jobCounter + 1) := by
    rw [hk3']
    intro hEq
    have := mkJobId_injective hEq
    omega
  rw [create_job_eq]
  show lookupJob job_id (storeJob (mkJobId (s.jobCounter + 1)) _ s.jobs) = some j
  rw [lookupJob_storeJob_other _ _ hne]
  exact hj

theorem findJob_processBatchCore_other (run : String → Except String α)
    (s : BatchProcessor α) (jid job_id : String) (hne : job_id ≠ jid) :
    (processBatchCore run s jid).1.findJob job_id = s.findJob job_id := by
  cases hl : s.findJob jid with
  | none => rw [processBatchCore_eq_none run s jid hl]
  | some job =>
    rw [processBatchCore_eq_some run s jid job hl]
    show lookupJob job_id (storeJob jid _ s.jobs) = _
    rw [lookupJob_storeJob_other _ _ hne]
    rfl

theorem cancel_job_eq_none (s : BatchProcessor α) (jid : String)
    (hl : s.findJob jid = none) : s.cancel_job jid = (s, false) := by
  simp [cancel_job, hl]

theorem cancel_job_eq_active (s : BatchProcessor α) (jid : String) (job : BatchJob α)
    (hl : s.findJob jid = some job)
    (hc : job.status = .pending ∨ job.status = .processing) :
    s.cancel_job jid
      = ({ s with jobs := storeJob jid { job with status := .cancelled } s.jobs }, true) := by
  simp [cancel_job, hl, hc]

theorem cancel_job_eq_inactive (s : BatchProcessor α) (jid : String) (job : BatchJob α)
    (hl : s.findJob jid = some job)
    (hc : ¬ (job.status = .pending ∨ job.status = .processing)) :
    s.cancel_job jid = (s, false) := by
  simp [cancel_job, hl, hc]

theorem findJob_cancel_other (s : BatchProcessor α) (jid job_id : String)
    (hne : job_id ≠ jid) :
    ((s.cancel_job jid).1).findJob job_id = s.findJob job_id := by
  cases hl : s.findJob jid with
  | none => rw [cancel_job_eq_none s jid hl]
  | some job =>
    by_cases hc : job.status = BatchStatus.pending ∨ job.status = BatchStatus.processing
    · rw [cancel_job_eq_active s jid job hl hc]
      show lookupJob job_id (storeJob jid _ s.jobs) = _
      rw [lookupJob_storeJob_other _ _ hne]
      rfl
    · rw [cancel_job_eq_inactive s jid job hl hc]

theorem delete_job_eq_found (s : BatchProcessor α) (jid : String)
    (hd : (s.findJob jid).isSome) :
    s.delete_job jid = ({ s with jobs := removeJob jid s.jobs }, true) := by
  simp [delete_job, hd]

theorem delete_job_eq_missing (s : BatchProcessor α) (jid : String)
    (hd : ¬ (s.findJob jid).isSome) :
    s.delete_job jid = (s, false) := by
  simp [delete_job, hd]

theorem findJob_delete_other (s : BatchProcessor α) (jid job_id : String)
    (hne : job_id ≠ jid) :
    ((s.delete_job jid).1).findJob job_id = s.findJob job_id := by
  by_cases hd : (s.findJob jid).isSome
  · rw [delete_job_eq_found s jid hd]
    show lookupJob job_id (removeJob jid s.jobs) = _
    rw [lookupJob_removeJob_other _ _ hne]
    rfl
  · rw [delete_job_eq_missing s jid hd]

theorem findJob_delete_self (s : BatchProcessor α) (jid : String) :
    ((s.delete_job jid).1).findJob jid = none := by
  by_cases hd : (s.findJob jid).isSome
  · rw [delete_job_eq_found s jid hd]
    exact lookupJob_removeJob_self _ _
  · rw [delete_job_eq_missing s jid hd]
    cases hl : s.findJob jid with
    | none => rfl
    | some job => rw [hl] at hd; simp at hd

theorem finishedJob_status (run : String → Except String α) (job : BatchJob α) :
    (finishedJob run job).status = .completed := rfl

/-- Per-operation status stability: if a job is bound before and after one
operation, then (a) unless the operation is a processing pass on that very
job, a terminal status is unchanged, and (b) a non-PENDING job never goes
back to PENDING. -/
theorem findJob_applyOp_statusStable (s : BatchProcessor α) (hA : keysAllocated s)
    (op : StoreOp α) (job_id : String) (j j' : BatchJob α)
    (hj : s.findJob job_id = some j)
    (hj' : (applyOp s op).findJob job_id = some j') :
    (¬ op.processes job_id → BatchStatus.terminal j.status → j'.status = j.status)
  ∧ (j.status ≠ .pending → j'.status ≠ .pending) := by
  cases op with
  | create job_type files options =>
    simp only [applyOp] at hj'
    rw [findJob_create_of_allocated s hA job_type files options job_id j hj] at hj'
    cases hj'
    exact ⟨fun _ _ => rfl, fun h => h⟩
  | processOcr jid e =>
    simp only [applyOp, process_ocr_batch] at hj'
    by_cases hid : jid = job_id
    · subst hid
      rw [processBatchCore_findJob _ s jid j hj] at hj'
      cases hj'
      refine ⟨fun hnp _ => absurd rfl hnp, fun _ => ?_⟩
      rw [finishedJob_status]
      intro hcon
      cases hcon
    · rw [findJob_processBatchCore_other _ s jid job_id (Ne.symm hid), hj] at hj'
      cases hj'
      exact ⟨fun _ _ => rfl, fun h => h⟩
  | processStructure jid e =>
    simp only [applyOp, process_structure_batch] at hj'
    by_cases hid : jid = job_id
    · subst hid
      rw [processBatchCore_findJob _ s jid j hj] at hj'
      cases hj'
      refine ⟨fun hnp _ => absurd rfl hnp, fun _ => ?_⟩
      rw [finishedJob_status]
      intro hcon
      cases hcon
    · rw [findJob_processBatchCore_other _ s jid job_id (Ne.symm hid), hj] at hj'
      cases hj'
      exact ⟨fun _ _ => rfl, fun h => h⟩
  | processVl jid e =>
    simp only [applyOp, process_vl_batch] at hj'
    by_cases hid : jid = job_id
    · subst hid
      rw [processBatchCore_findJob _ s jid j hj] at hj'
      cases hj'
      refine ⟨fun hnp _ => absurd rfl hnp, fun _ => ?_⟩
      rw [finishedJob_status]
      intro hcon
      cases hcon
    · rw [findJob_processBatchCore_other _ s jid job_id (Ne.symm hid), hj] at hj'
      cases hj'
      exact ⟨fun _ _ => rfl, fun h => h⟩
  | cancel jid =>
    simp only [applyOp] at hj'
    by_cases hid : jid = job_id
    · subst hid
      by_cases hc : j.status = BatchStatus.pending ∨ j.status = BatchStatus.processing
      · rw [cancel_job_eq_active s jid j hj hc] at hj'
        have : lookupJob jid (storeJob jid { j with status := .cancelled } s.jobs)
            = some { j with status := BatchStatus.cancelled } := lookupJob_storeJob_self _ _ _
        rw [show ((({ s with jobs := storeJob jid { j with status := .cancelled } s.jobs },
              true) : BatchProcessor α × Bool).1).findJob jid
            = lookupJob jid (storeJob jid { j with status := .cancelled } s.jobs) from rfl,
          this] at hj'
        cases hj'
        constructor
        · intro _ hterm
          exfalso
          rcases hc with h1 | h1 <;> rcases hterm with h2 | h2 | h2 <;>
            rw [h1] at h2 <;> cases h2
        · intro _ hcon
          cases hcon
      · rw [cancel_job_eq_inactive s jid j hj hc] at hj'
        rw [show (((s, false) : BatchProcessor α × Bool).1).findJob jid = s.findJob jid from rfl,
          hj] at hj'
        cases hj'
        exact ⟨fun _ _ => rfl, fun h => h⟩
    · rw [findJob_cancel_other s jid job_id (Ne.symm hid), hj] at hj'
      cases hj'
      exact ⟨fun _ _ => rfl, fun h => h⟩
  | delete jid =>
    simp only [applyOp] at hj'
    by_cases hid : jid = job_id
    · subst hid
      rw [findJob_delete_self s jid] at hj'
      cases hj'
    · rw [findJob_delete_other s jid job_id (Ne.symm hid), hj] at hj'
      cases hj'
      exact ⟨fun _ _ => rfl, fun h => h⟩
  | getOp jid =>
    simp only [applyOp] at hj'
    rw [hj] at hj'
    cases hj'
    exact ⟨fun _ _ => rfl, fun h => h⟩
  | listOp =>
    simp only [applyOp] at hj'
    rw [hj] at hj'
    cases hj'
    exact ⟨fun _ _ => rfl, fun h => h⟩
  | exportOp jid d =>
    simp only [applyOp] at hj'
    rw [hj] at hj'
    cases hj'
    exact ⟨fun _ _ => rfl, fun h => h⟩

end BatchProcessor

/-! ### Support lemmas for the claims -/

namespace BatchProcessor

variable {α : Type}

/-- Field-level description of the job a processing pass stores back. -/
theorem finishedJob_fields (run : String → Except String α) (j : BatchJob α) :
    finishedJob run j =
      { j with
        status := .completed
        results := j.results ++ successRecords run (List.enumFrom 0 j.files)
        errors := j.errors ++ errorRecords run (List.enumFrom 0 j.files)
        progress := if j.files.isEmpty then j.progress else j.files.length } := by
  rw [finishedJob, runBatchLoop_eq]

/-- A processing pass on a bound job returns exactly the `get_job` snapshot
of the updated store. -/
theorem processBatchCore_snd (run : String → Except String α)
    (s : BatchProcessor α) (job_id : String) (j : BatchJob α)
    (hj : s.findJob job_id = some j) :
    (processBatchCore run s job_id).2
      = ((processBatchCore run s job_id).1).get_job job_id := by
  have h' : lookupJob job_id s.jobs = some j := hj
  simp [processBatchCore, findJob, h']

/-- Accounting invariant after one processing pass over a job with no prior
records. -/
theorem processBatchCore_accounting (run : String → Except String α)
    (s : BatchProcessor α) (job_id : String) (j : BatchJob α)
    (hj : s.findJob job_id = some j) (hres : j.results = []) (herr : j.errors = [])
    (hprog : j.progress = 0) (htot : j.total = j.files.length) :
    ∀ j', ((processBatchCore run s job_id).1).findJob job_id = some j' →
      j'.progress = j'.total ∧ j'.total = j'.results.length + j'.errors.length ∧
      (j'.results.map ResultRecord.index ++ j'.errors.map ErrorRecord.index).Perm
        (List.range j'.total) := by
  intro j' hj'
  rw [processBatchCore_findJob run s job_id j hj] at hj'
  cases hj'
  rw [finishedJob_fields]
  refine ⟨?_, ?_, ?_⟩
  · show (if j.files.isEmpty then j.progress else j.files.length) = j.total
    rw [htot, hprog]
    cases j.files <;> simp
  · show j.total
        = (j.results ++ successRecords run (List.enumFrom 0 j.files)).length
          + (j.errors ++ errorRecords run (List.enumFrom 0 j.files)).length
    rw [hres, herr, htot]
    simp [records_length]
  · show ((j.results ++ successRecords run (List.enumFrom 0 j.files)).map ResultRecord.index
        ++ (j.errors ++ errorRecords run (List.enumFrom 0 j.files)).map ErrorRecord.index).Perm
        (List.range j.total)
    rw [hres, herr, htot, List.range_eq_range']
    simpa using indices_perm run j.files 0

theorem get?_mem_enumFrom (fs : List String) :
    ∀ (n i : Nat) (f : String), fs.get? i = some f → (n + i, f) ∈ List.enumFrom n fs := by
  induction fs with
  | nil => intro n i f h; simp at h
  | cons a rest ih =>
    intro n i f h
    cases i with
    | zero =>
      rw [List.get?] at h
      cases h
      simp [List.enumFrom]
    | succ i' =>
      rw [List.get?] at h
      have hmem := ih (n + 1) i' f h
      have heq : n + (i' + 1) = (n + 1) + i' := by omega
      rw [show List.enumFrom n (a :: rest) = (n, a) :: List.enumFrom (n + 1) rest from rfl,
        heq]
      exact List.mem_cons_of_mem _ hmem

theorem errorRecords_mem (run : String → Except String α) (fs : List String)
    (i : Nat) (f msg : String) (hget : fs.get? i = some f)
    (herr : run f = Except.error msg) :
    (⟨basename f, i, msg⟩ : ErrorRecord) ∈ errorRecords run (List.enumFrom 0 fs) := by
  rw [errorRecords, List.mem_filterMap]
  refine ⟨(i, f), ?_, ?_⟩
  · simpa using get?_mem_enumFrom fs 0 i f hget
  · simp [herr]

/-- Failure isolation after one processing pass: the status is COMPLETED
regardless of how many files failed, and every raising file left its error
record (appended after the pre-existing ones). -/
theorem processBatchCore_failures (run : String → Except String α)
    (s : BatchProcessor α) (job_id : String) (j : BatchJob α)
    (hj : s.findJob job_id = some j) :
    ∀ j', ((processBatchCore run s job_id).1).findJob job_id = some j' →
      j'.status = .completed ∧
      j'.errors = j.errors ++ errorRecords run (List.enumFrom 0 j.files) ∧
      ∀ i f msg, j.files.get? i = some f → run f = Except.error msg →
        (⟨basename f, i, msg⟩ : ErrorRecord) ∈ j'.errors := by
  intro j' hj'
  rw [processBatchCore_findJob run s job_id j hj] at hj'
  cases hj'
  refine ⟨rfl, by rw [finishedJob_fields], ?_⟩
  intro i f msg hget herr
  rw [finishedJob_fields]
  show _ ∈ j.errors ++ errorRecords run (List.enumFrom 0 j.files)
  exact List.mem_append_right _ (errorRecords_mem run j.files i f msg hget herr)

/-- Processing a job whose file list is empty completes immediately and
changes nothing but the status. -/
theorem processBatchCore_empty (run : String → Except String α)
    (s : BatchProcessor α) (job_id : String) (j : BatchJob α)
    (hj : s.findJob job_id = some j) (hfiles : j.files = [])
    (hprog : j.progress = 0) (hres : j.results = []) (herr : j.errors = [])
    (htot : j.total = 0) :
    ∃ snap, (processBatchCore run s job_id).2 = some snap ∧
      ((processBatchCore run s job_id).1).get_job job_id = some snap ∧
      snap.status = "completed" ∧ snap.progress = 0 ∧ snap.total = 0 ∧
      snap.results = [] ∧ snap.errors = [] ∧ snap.percent = 0 := by
  have hfj := processBatchCore_findJob run s job_id j hj
  have hget := get_job_eq _ job_id _ hfj
  refine ⟨_, ?_, hget, ?_, ?_, ?_, ?_, ?_, ?_⟩
  · rw [processBatchCore_snd run s job_id j hj, hget]
  all_goals
    simp [finishedJob_fields, successRecords, errorRecords, hfiles, hres, herr,
      hprog, htot, BatchStatus.value, percentOf]

/-- A second processing pass over an already-completed job: one more record
per file, progress stuck at the file count, COMPLETED again. -/
theorem processBatchCore_reprocess (run : String → Except String α)
    (s : BatchProcessor α) (job_id : String) (n : Nat) (j : BatchJob α)
    (hj : s.findJob job_id = some j) (hfl : j.files.length = n)
    (hcnt : j.results.length + j.errors.length = n) (hprog : j.progress = n) :
    ∀ j', ((processBatchCore run s job_id).1).findJob job_id = some j' →
      j' = finishedJob run j ∧
      j'.results.length + j'.errors.length = 2 * n ∧
      j'.progress = n ∧ j'.status = .completed ∧
      (1 ≤ n → ¬ j'.progress = j'.results.length + j'.errors.length) := by
  intro j' hj'
  rw [processBatchCore_findJob run s job_id j hj] at hj'
  cases hj'
  have hlen : (finishedJob run j).results.length + (finishedJob run j).errors.length
      = 2 * n := by
    rw [finishedJob_fields]
    show (j.results ++ successRecords run (List.enumFrom 0 j.files)).length
        + (j.errors ++ errorRecords run (List.enumFrom 0 j.files)).length = 2 * n
    rw [List.length_append, List.length_append]
    have hrec := records_length run j.files 0
    omega
  have hpr : (finishedJob run j).progress = n := by
    rw [finishedJob_fields]
    show (if j.files.isEmpty then j.progress else j.files.length) = n
    cases hc : j.files.isEmpty
    · rw [if_neg (by simp [hc])]
      exact hfl
    · rw [if_pos rfl]
      exact hprog
  refine ⟨rfl, hlen, hpr, rfl, ?_⟩
  intro h1
  rw [hlen, hpr]
  omega

/-- A terminal status is neither PENDING nor PROCESSING. -/
theorem terminal_not_active (st : BatchStatus) (h : BatchStatus.terminal st) :
    ¬ (st = .pending ∨ st = .processing) := by
  intro h2
  rcases h with h1 | h1 | h1 <;> rcases h2 with h2 | h2 <;>
    rw [h1] at h2 <;> exact BatchStatus.noConfusion h2

end BatchProcessor

/-! ### String lemmas for the export paths -/

theorem pathJoin_eq (a b : String) (hb : b.data.head? ≠ some '/')
    (ha0 : a ≠ "") (ha1 : a.data.getLast? ≠ some '/') :
    pathJoin a b = a ++ "/" ++ b := by
  rw [pathJoin, if_neg hb, if_neg]
  rintro (h | h)
  exacts [ha0 h, ha1 h]

theorem append_ne_empty_of_right (s t : String) (ht : t ≠ "") : s ++ t ≠ "" := by
  intro h
  apply ht
  have hd := congrArg String.data h
  rw [String.data_append] at hd
  have h2 : t.data = [] := (List.append_eq_nil.mp hd).2
  exact String.ext h2

theorem head?_append_ne_slash (s t : String) (hs : s.data.head? ≠ some '/')
    (ht : t.data.head? ≠ some '/') : (s ++ t).data.head? ≠ some '/' := by
  rw [String.data_append]
  cases hd : s.data with
  | nil => simpa using ht
  | cons c cs =>
    rw [hd] at hs
    simpa using hs

/-! ### The claims -/

namespace BatchProcessor

variable {α : Type}

/-- **C1** (amended).  The frozen claim quantifies over *every* job in the
store; it fails for a job that already carries records from an earlier pass
(see the counterexample, and C10).  Restricted to a job with no prior
processing records — results and errors empty, progress 0,
`total = len(files)`, exactly the state `create_job` establishes — it holds:
after `process_ocr_batch`, `process_structure_batch` or `process_vl_batch`
on its job id returns, the job satisfies
`progress == total == len(results) + len(errors)`, and the multiset of
`index` fields across results and errors is exactly `{0, …, total − 1}`,
each index occurring exactly once. -/
theorem claim1_process_accounting (s : BatchProcessor α) (job_id : String)
    (j : BatchJob α) (hj : s.findJob job_id = some j)
    (hres : j.results = []) (herr : j.errors = [])
    (hprog : j.progress = 0) (htot : j.total = j.files.length)
    (ocr_engine : OcrEngine α) (structure_engine : StructureEngine α)
    (vl_engine : VlEngine α) :
    (∀ j', ((s.process_ocr_batch job_id ocr_engine).1).findJob job_id = some j' →
      j'.progress = j'.total ∧ j'.total = j'.results.length + j'.errors.length ∧
      (j'.results.map ResultRecord.index ++ j'.errors.map ErrorRecord.index).Perm
        (List.range j'.total))
  ∧ (∀ j', ((s.process_structure_batch job_id structure_engine).1).findJob job_id
        = some j' →
      j'.progress = j'.total ∧ j'.total = j'.results.length + j'.errors.length ∧
      (j'.results.map ResultRecord.index ++ j'.errors.map ErrorRecord.index).Perm
        (List.range j'.total))
  ∧ (∀ j', ((s.process_vl_batch job_id vl_engine).1).findJob job_id = some j' →
      j'.progress = j'.total ∧ j'.total = j'.results.length + j'.errors.length ∧
      (j'.results.map ResultRecord.index ++ j'.errors.map ErrorRecord.index).Perm
        (List.range j'.total)) :=
  ⟨processBatchCore_accounting _ s job_id j hj hres herr hprog htot,
   processBatchCore_accounting _ s job_id j hj hres herr hprog htot,
   processBatchCore_accounting _ s job_id j hj hres herr hprog htot⟩

/-- **C1** witness: the amended theorem applied to the freshly created
single-file job of `demoS1` with an always-succeeding engine. -/
theorem claim1_process_accounting_witness :
    demoJobDone.progress = demoJobDone.total ∧
    demoJobDone.total = demoJobDone.results.length + demoJobDone.errors.length ∧
    (demoJobDone.results.map ResultRecord.index
      ++ demoJobDone.errors.map ErrorRecord.index).Perm (List.range demoJobDone.total) :=
  (claim1_process_accounting demoS1 "batch_1" demoJobPending (by decide) (by decide)
      (by decide) (by decide) (by decide) okEngine okStructureEngine okVlEngine).1
    demoJobDone (by decide)

/-- **C1** counterexample: in `demoS3`, obtained by processing the same
one-file job twice, the job is present after a process call with
`progress = 1 = total` but `len(results) + len(errors) = 2`, so the claimed
equality `progress == len(results) + len(errors)` is false there. -/
theorem claim1_process_accounting_counterexample :
    (demoS3.findJob "batch_1").map BatchJob.progress = some 1 ∧
    (demoS3.findJob "batch_1").map BatchJob.total = some 1 ∧
    (demoS3.findJob "batch_1").map (fun j => j.results.length + j.errors.length)
      = some 2 ∧
    (demoS3.findJob "batch_1").map
      (fun j => j.progress == j.results.length + j.errors.length) = some false :=
  ⟨by decide, by decide, by decide, by decide⟩

/-- **C2** (confirmed).  During a process call on a bound job, every file
index at which the injected capability raises contributes the record
`{file: basename(files[i]), index: i, error: msg}` to `errors` (the new
records are appended after the pre-existing entries, in file order — the
failure never aborts the batch), and after the loop the job's status is
COMPLETED, even when every file failed: completion is unconditional. -/
theorem claim2_failure_isolation (s : BatchProcessor α) (job_id : String)
    (j : BatchJob α) (hj : s.findJob job_id = some j)
    (ocr_engine : OcrEngine α) (structure_engine : StructureEngine α)
    (vl_engine : VlEngine α) :
    (∀ j', ((s.process_ocr_batch job_id ocr_engine).1).findJob job_id = some j' →
      j'.status = .completed ∧
      j'.errors = j.errors
        ++ errorRecords ocr_engine.detect_text (List.enumFrom 0 j.files) ∧
      ∀ i f msg, j.files.get? i = some f →
        ocr_engine.detect_text f = Except.error msg →
        (⟨basename f, i, msg⟩ : ErrorRecord) ∈ j'.errors)
  ∧ (∀ j', ((s.process_structure_batch job_id structure_engine).1).findJob job_id
        = some j' →
      j'.status = .completed ∧
      j'.errors = j.errors
        ++ errorRecords structure_engine.parse_document (List.enumFrom 0 j.files) ∧
      ∀ i f msg, j.files.get? i = some f →
        structure_engine.parse_document f = Except.error msg →
        (⟨basename f, i, msg⟩ : ErrorRecord) ∈ j'.errors)
  ∧ (∀ j', ((s.process_vl_batch job_id vl_engine).1).findJob job_id = some j' →
      j'.status = .completed ∧
      j'.errors = j.errors
        ++ errorRecords vl_engine.parse_document (List.enumFrom 0 j.files) ∧
      ∀ i f msg, j.files.get? i = some f →
        vl_engine.parse_document f = Except.error msg →
        (⟨basename f, i, msg⟩ : ErrorRecord) ∈ j'.errors) :=
  ⟨processBatchCore_failures _ s job_id j hj,
   processBatchCore_failures _ s job_id j hj,
   processBatchCore_failures _ s job_id j hj⟩

/-- **C2** witness: the one-file job processed with an engine that always
raises `"boom"`: the error record is recorded and the job is COMPLETED even
though 100% of its files failed. -/
theorem claim2_failure_isolation_witness :
    ∃ j' : BatchJob Unit,
      ((demoS1.process_ocr_batch "batch_1" failEngine).1).findJob "batch_1" = some j' ∧
      j'.status = .completed ∧
      (⟨"a.png", 0, "boom"⟩ : ErrorRecord) ∈ j'.errors := by
  have h := (claim2_failure_isolation demoS1 "batch_1" demoJobPending (by decide)
      failEngine okStructureEngine okVlEngine).1 demoJobErrored (by decide)
  refine ⟨demoJobErrored, by decide, h.1, ?_⟩
  have hm := h.2.2 0 "a.png" "boom" (by decide) rfl
  have hb : basename "a.png" = "a.png" := by decide
  rw [hb] at hm
  exact hm

/-- **C3** counterexample: statuses are not monotonic over the full
operation alphabet — a process call on a CANCELLED (terminal) job drags it
back through PROCESSING to COMPLETED.  Concretely: create a one-file job,
cancel it (status CANCELLED, terminal), then apply the `processOcr` store
operation: the status becomes COMPLETED. -/
theorem claim3_status_monotonic_counterexample :
    (demoCancelled.findJob "batch_1").map BatchJob.status = some BatchStatus.cancelled ∧
    BatchStatus.terminal BatchStatus.cancelled ∧
    ((applyOp demoCancelled (StoreOp.processOcr "batch_1" okEngine)).findJob
        "batch_1").map BatchJob.status = some BatchStatus.completed :=
  ⟨by decide, Or.inr (Or.inr rfl), by decide⟩

/-- **C3** (amended).  Over stores reachable from a fresh `BatchProcessor()`
by any sequence of store operations: once a job's status is COMPLETED,
FAILED or CANCELLED, no operation *other than a process call on that very
job id* changes its status (a process call re-enters PROCESSING and ends
COMPLETED — the code never guards process on a terminal job); and no job
ever re-enters PENDING from any other status. -/
theorem claim3_status_monotonic (s : BatchProcessor α) (hR : Reachable s)
    (op : StoreOp α) (job_id : String) (j j' : BatchJob α)
    (hj : s.findJob job_id = some j)
    (hj' : (applyOp s op).findJob job_id = some j') :
    (BatchStatus.terminal j.status → ¬ op.processes job_id → j'.status = j.status)
  ∧ (j.status ≠ .pending → j'.status ≠ .pending) := by
  have h := findJob_applyOp_statusStable s (reachable_keysAllocated s hR)
    op job_id j j' hj hj'
  exact ⟨fun ht hnp => h.1 hnp ht, h.2⟩

/-- **C3** witness: the amended theorem applied to the reachable store
`demoCancelled` (create, then cancel), with a second `cancel` operation on
the terminal job: its status stays CANCELLED and is still not PENDING. -/
theorem claim3_status_monotonic_witness :
    demoJobCancelled.status = demoJobCancelled.status ∧
    demoJobCancelled.status ≠ BatchStatus.pending := by
  have h := claim3_status_monotonic demoCancelled
    (Reachable.step (StoreOp.cancel "batch_1")
      (Reachable.step (StoreOp.create "ocr" ["a.png"] none) Reachable.init))
    (StoreOp.cancel "batch_1") "batch_1" demoJobCancelled demoJobCancelled
    (by decide) (by decide)
  exact ⟨h.1 (Or.inr (Or.inr rfl)) (fun hc => hc), h.2 (by decide)⟩

end BatchProcessor

namespace BatchProcessor

variable {α : Type}

/-- **C4** (confirmed).  `get_job` returns the not-found signal (`None`)
exactly on ids not in the store; for a bound job it returns a snapshot, and
that snapshot's `percent` field equals 0 when the job's `total == 0` and
`round(progress / total * 100, 1)` otherwise. -/
theorem claim4_get_job_contract (s : BatchProcessor α) (job_id : String) :
    (s.findJob job_id = none → s.get_job job_id = none)
  ∧ (∀ j, s.findJob job_id = some j →
      ∃ snap, s.get_job job_id = some snap ∧
        snap.percent = (if j.total = 0 then 0
          else round1 ((j.progress : ℚ) / (j.total : ℚ) * 100))) := by
  constructor
  · intro h
    simp [get_job, h]
  · intro j hj
    refine ⟨_, get_job_eq s job_id j hj, ?_⟩
    show percentOf j.progress j.total = _
    by_cases h0 : j.total = 0
    · simp [percentOf, h0]
    · have hpos : 0 < j.total := Nat.pos_of_ne_zero h0
      simp [percentOf, hpos, h0]

/-- **C4** witness: the snapshot of the pending one-file job in `demoS1`. -/
theorem claim4_get_job_contract_witness :
    ∃ snap, demoS1.get_job "batch_1" = some snap ∧
      snap.percent = (if demoJobPending.total = 0 then 0
        else round1 ((demoJobPending.progress : ℚ) / (demoJobPending.total : ℚ) * 100)) :=
  (claim4_get_job_contract demoS1 "batch_1").2 demoJobPending (by decide)

/-- **C5** (confirmed).  `create_job` returns `mkJobId (counter + 1)`.
Since `_generate_job_id` is the store's only allocator and increments the
counter on every call, the ids ever allocated by a store are exactly
`mkJobId k` for `1 ≤ k ≤ counter` (`reachable_keysAllocated` ties the
registry keys to this set); the returned id differs from all of them.  The
stored job is PENDING with progress 0, `total = len(files)`, empty results
and errors, and the supplied options unmodified; `get_job` immediately
reports status `"pending"`, progress 0 and `total = len(files)`. -/
theorem claim5_create_job (s : BatchProcessor α) (job_type : String)
    (files : List String) (options : Option JobOptions) :
    ((s.create_job job_type files options).2 = mkJobId (s.jobCounter + 1)
      ∧ ∀ k, 1 ≤ k → k ≤ s.jobCounter →
          (s.create_job job_type files options).2 ≠ mkJobId k)
  ∧ (∃ j : BatchJob α,
      ((s.create_job job_type files options).1).findJob
          (s.create_job job_type files options).2 = some j ∧
      j.status = .pending ∧ j.progress = 0 ∧ j.total = files.length ∧
      j.results = [] ∧ j.errors = [] ∧ (∀ o, options = some o → j.options = o))
  ∧ (∃ snap, ((s.create_job job_type files options).1).get_job
        (s.create_job job_type files options).2 = some snap ∧
      snap.status = "pending" ∧ snap.progress = 0 ∧ snap.total = files.length) := by
  have hfind : ((s.create_job job_type files options).1).findJob
      (s.create_job job_type files options).2
      = some (createdJob (mkJobId (s.jobCounter + 1)) job_type files options) := by
    rw [create_job_eq]
    exact lookupJob_storeJob_self _ _ _
  refine ⟨⟨rfl, ?_⟩,
    ⟨_, hfind, rfl, rfl, rfl, rfl, rfl, ?_⟩,
    ⟨_, get_job_eq _ _ _ hfind, rfl, rfl, rfl⟩⟩
  · intro k hk1 hk2 hEq
    have hEq' : mkJobId (s.jobCounter + 1) = mkJobId k := hEq
    have := mkJobId_injective hEq'
    omega
  · intro o ho
    rw [ho]
    rfl

/-- **C5** witness: creating a second job in `demoS1` yields an id distinct
from the already-allocated `mkJobId 1 = "batch_1"`. -/
theorem claim5_create_job_witness :
    (demoS1.create_job "ocr" ["b.png"] none).2 ≠ mkJobId 1 :=
  ((claim5_create_job demoS1 "ocr" ["b.png"] none).1).2 1 (by decide) (by decide)

/-- **C6** (confirmed).  `cancel_job` returns true and moves the job to
CANCELLED exactly when the job exists with status PENDING or PROCESSING;
for a job in a terminal status, or an unknown id, it returns false and
leaves the store unchanged. -/
theorem claim6_cancel_job (s : BatchProcessor α) (job_id : String) :
    (∀ j, s.findJob job_id = some j →
      (j.status = .pending ∨ j.status = .processing →
        (s.cancel_job job_id).2 = true ∧
        ∃ j', ((s.cancel_job job_id).1).findJob job_id = some j' ∧
          j'.status = .cancelled)
      ∧ (BatchStatus.terminal j.status →
          (s.cancel_job job_id).2 = false ∧ (s.cancel_job job_id).1 = s))
  ∧ (s.findJob job_id = none → s.cancel_job job_id = (s, false)) := by
  constructor
  · intro j hj
    constructor
    · intro hact
      rw [cancel_job_eq_active s job_id j hj hact]
      exact ⟨rfl, ⟨{ j with status := .cancelled }, lookupJob_storeJob_self _ _ _, rfl⟩⟩
    · intro hterm
      rw [cancel_job_eq_inactive s job_id j hj (terminal_not_active _ hterm)]
      exact ⟨rfl, rfl⟩
  · exact cancel_job_eq_none s job_id

/-- **C6** witness: cancelling the pending job in `demoS1` succeeds and the
job is CANCELLED afterwards. -/
theorem claim6_cancel_job_witness :
    (demoS1.cancel_job "batch_1").2 = true ∧
    ∃ j', ((demoS1.cancel_job "batch_1").1).findJob "batch_1" = some j' ∧
      j'.status = BatchStatus.cancelled :=
  (((claim6_cancel_job demoS1 "batch_1").1 demoJobPending (by decide)).1) (Or.inl rfl)

/-- **C7** (confirmed).  `delete_job` removes the job unconditionally —
no status is consulted — and returns true exactly when a job with that id
existed; deleting the same id again finds nothing and returns false. -/
theorem claim7_delete_job (s : BatchProcessor α) (job_id : String) :
    ((s.findJob job_id).isSome →
      (s.delete_job job_id).2 = true ∧
      ((s.delete_job job_id).1).findJob job_id = none ∧
      (((s.delete_job job_id).1).delete_job job_id).2 = false)
  ∧ (¬ (s.findJob job_id).isSome → s.delete_job job_id = (s, false)) := by
  constructor
  · intro hd
    have h1 := delete_job_eq_found s job_id hd
    have hnone : ((s.delete_job job_id).1).findJob job_id = none :=
      findJob_delete_self s job_id
    refine ⟨by rw [h1], hnone, ?_⟩
    have h2 : ¬ (((s.delete_job job_id).1).findJob job_id).isSome := by
      rw [hnone]
      simp
    rw [delete_job_eq_missing _ job_id h2]
  · exact delete_job_eq_missing s job_id

/-- **C7** witness: deleting `batch_1` from `demoS1` returns true, the job
is gone, and a second delete returns false. -/
theorem claim7_delete_job_witness :
    (demoS1.delete_job "batch_1").2 = true ∧
    ((demoS1.delete_job "batch_1").1).findJob "batch_1" = none ∧
    (((demoS1.delete_job "batch_1").1).delete_job "batch_1").2 = false :=
  (claim7_delete_job demoS1 "batch_1").1 (by decide)

end BatchProcessor

namespace BatchProcessor

variable {α : Type}

/-- **C8** (confirmed).  For a job created with an empty files list (empty
results/errors, progress 0, total 0 — the state `create_job` establishes),
each of the three process calls returns immediately with the job COMPLETED,
`progress == total == 0`, empty results and errors, and the returned
snapshot — which is exactly what a subsequent `get_job` reports — has
`percent == 0`. -/
theorem claim8_empty_files (s : BatchProcessor α) (job_id : String)
    (j : BatchJob α) (hj : s.findJob job_id = some j) (hfiles : j.files = [])
    (hprog : j.progress = 0) (hres : j.results = []) (herr : j.errors = [])
    (htot : j.total = 0)
    (ocr_engine : OcrEngine α) (structure_engine : StructureEngine α)
    (vl_engine : VlEngine α) :
    (∃ snap, (s.process_ocr_batch job_id ocr_engine).2 = some snap ∧
      ((s.process_ocr_batch job_id ocr_engine).1).get_job job_id = some snap ∧
      snap.status = "completed" ∧ snap.progress = 0 ∧ snap.total = 0 ∧
      snap.results = [] ∧ snap.errors = [] ∧ snap.percent = 0)
  ∧ (∃ snap, (s.process_structure_batch job_id structure_engine).2 = some snap ∧
      ((s.process_structure_batch job_id structure_engine).1).get_job job_id
        = some snap ∧
      snap.status = "completed" ∧ snap.progress = 0 ∧ snap.total = 0 ∧
      snap.results = [] ∧ snap.errors = [] ∧ snap.percent = 0)
  ∧ (∃ snap, (s.process_vl_batch job_id vl_engine).2 = some snap ∧
      ((s.process_vl_batch job_id vl_engine).1).get_job job_id = some snap ∧
      snap.status = "completed" ∧ snap.progress = 0 ∧ snap.total = 0 ∧
      snap.results = [] ∧ snap.errors = [] ∧ snap.percent = 0) :=
  ⟨processBatchCore_empty _ s job_id j hj hfiles hprog hres herr htot,
   processBatchCore_empty _ s job_id j hj hfiles hprog hres herr htot,
   processBatchCore_empty _ s job_id j hj hfiles hprog hres herr htot⟩

/-- **C8** witness: processing the zero-file job of `demoEmptyS`. -/
theorem claim8_empty_files_witness :
    ∃ snap, (demoEmptyS.process_ocr_batch "batch_1" okEngine).2 = some snap ∧
      ((demoEmptyS.process_ocr_batch "batch_1" okEngine).1).get_job "batch_1"
        = some snap ∧
      snap.status = "completed" ∧ snap.progress = 0 ∧ snap.total = 0 ∧
      snap.results = [] ∧ snap.errors = [] ∧ snap.percent = 0 :=
  (claim8_empty_files demoEmptyS "batch_1" demoJobEmpty (by decide) (by decide)
      (by decide) (by decide) (by decide) (by decide) okEngine okStructureEngine
      okVlEngine).1

/-- **C9** (confirmed).  `export_results` on an unknown id returns the
not-found signal and nothing is written; for a bound job it writes one
combined document at `{output_dir}/{job_id}_results.json` whose
`successful` and `failed` fields are the result and error counts and which
carries the full results and errors sequences, plus one document per
successful result at `{output_dir}/individual/{stem}_result.json`
containing exactly that result's `data`.  (The path-shape hypotheses pin
`os.path.join` to plain concatenation: `output_dir` non-empty and not
ending in `'/'`, no name component absolute.) -/
theorem claim9_export_results (s : BatchProcessor α) (job_id output_dir : String)
    (hdir0 : output_dir ≠ "") (hdir1 : output_dir.data.getLast? ≠ some '/')
    (hid : (job_id ++ "_results.json").data.head? ≠ some '/') :
    (s.findJob job_id = none → s.export_results job_id output_dir = none)
  ∧ (∀ j, s.findJob job_id = some j →
      (∀ r ∈ j.results, (splitextRoot r.file).data.head? ≠ some '/') →
      ∃ out, s.export_results job_id output_dir = some out ∧
        out.combinedPath = output_dir ++ "/" ++ job_id ++ "_results.json" ∧
        out.combined.successful = j.results.length ∧
        out.combined.failed = j.errors.length ∧
        out.combined.results = j.results ∧
        out.combined.errors = j.errors ∧
        out.info.total_exported = j.results.length ∧
        out.individualWrites = j.results.map (fun r =>
          (output_dir ++ "/individual/" ++ splitextRoot r.file ++ "_result.json",
            r.data))) := by
  constructor
  · intro h
    have h' : lookupJob job_id s.jobs = none := h
    simp [export_results, findJob, h']
  · intro j hj hre
    have h' : lookupJob job_id s.jobs = some j := hj
    have hexp : s.export_results job_id output_dir = some
        { info :=
            { success := true
              output_dir := output_dir
              combined_file := pathJoin output_dir (job_id ++ "_results.json")
              individual_dir := pathJoin output_dir "individual"
              total_exported := j.results.length }
          combinedPath := pathJoin output_dir (job_id ++ "_results.json")
          combined :=
            { job_id := j.job_id
              job_type := j.job_type
              total_files := j.total
              successful := j.results.length
              failed := j.errors.length
              results := j.results
              errors := j.errors }
          individualWrites := j.results.map (fun r =>
            (pathJoin (pathJoin output_dir "individual")
              (splitextRoot r.file ++ "_result.json"), r.data)) } := by
      simp [export_results, findJob, h']
    have hcp : pathJoin output_dir (job_id ++ "_results.json")
        = output_dir ++ "/" ++ job_id ++ "_results.json" := by
      rw [pathJoin_eq _ _ hid hdir0 hdir1]
      simp [String.append_assoc]
    have hind : pathJoin output_dir "individual" = output_dir ++ "/" ++ "individual" :=
      pathJoin_eq _ _ (by decide) hdir0 hdir1
    have hindNe : output_dir ++ "/" ++ "individual" ≠ "" :=
      append_ne_empty_of_right _ _ (by decide)
    have hindLast : (output_dir ++ "/" ++ "individual").data.getLast? ≠ some '/' := by
      intro hcon
      rw [String.data_append, List.getLast?_append,
        show ("individual" : String).data.getLast? = some 'l' from rfl] at hcon
      simp [Option.or] at hcon
    have hwr : ∀ r ∈ j.results,
        pathJoin (pathJoin output_dir "individual")
            (splitextRoot r.file ++ "_result.json")
          = output_dir ++ "/individual/" ++ splitextRoot r.file ++ "_result.json" := by
      intro r hr
      rw [hind,
        pathJoin_eq _ _ (head?_append_ne_slash _ _ (hre r hr) (by decide))
          hindNe hindLast]
      simp only [String.append_assoc]
      congr 1
    refine ⟨_, hexp, hcp, rfl, rfl, rfl, rfl, rfl, ?_⟩
    exact List.map_congr_left (fun r hr => congrArg (fun x => (x, r.data)) (hwr r hr))

/-- **C9** witness: exporting the completed `invoice.png` job of `demoInvS`
to `/tmp/out` (Scenario D: `successful: 1, failed: 0`, and the individual
document `/tmp/out/individual/invoice_result.json` holds the result data). -/
theorem claim9_export_results_witness :
    ∃ out, demoInvS.export_results "batch_1" "/tmp/out" = some out ∧
      out.combinedPath = "/tmp/out" ++ "/" ++ "batch_1" ++ "_results.json" ∧
      out.combined.successful = demoJobInv.results.length ∧
      out.combined.failed = demoJobInv.errors.length ∧
      out.combined.results = demoJobInv.results ∧
      out.combined.errors = demoJobInv.errors ∧
      out.info.total_exported = demoJobInv.results.length ∧
      out.individualWrites = demoJobInv.results.map (fun r =>
        ("/tmp/out" ++ "/individual/" ++ splitextRoot r.file ++ "_result.json",
          r.data)) :=
  (claim9_export_results demoInvS "batch_1" "/tmp/out" (by decide) (by decide)
      (by decide)).2 demoJobInv (by decide) (by decide)

/-- **C10** (confirmed).  The store does not guard against reprocessing:
for a job with `n = total` files already COMPLETED (with the `n` records of
one full pass and `progress = n`), a second process call on its job id
stores back `finishedJob run j` — by definition the loop is run over the
job re-marked PROCESSING before it is re-marked COMPLETED — appending one
additional record per file, after which
`len(results) + len(errors) = 2*n` while `progress = n` and the status is
COMPLETED, so for `n ≥ 1` the progress-equals-records accounting no longer
holds. -/
theorem claim10_reprocessing (s : BatchProcessor α) (job_id : String) (n : Nat)
    (j : BatchJob α) (hj : s.findJob job_id = some j)
    (_hst : j.status = .completed) (hfl : j.files.length = n) (_htot : j.total = n)
    (hcnt : j.results.length + j.errors.length = n) (hprog : j.progress = n)
    (ocr_engine : OcrEngine α) (structure_engine : StructureEngine α)
    (vl_engine : VlEngine α) :
    (∀ j', ((s.process_ocr_batch job_id ocr_engine).1).findJob job_id = some j' →
      j' = finishedJob ocr_engine.detect_text j ∧
      j'.results.length + j'.errors.length = 2 * n ∧
      j'.progress = n ∧ j'.status = .completed ∧
      (1 ≤ n → ¬ j'.progress = j'.results.length + j'.errors.length))
  ∧ (∀ j', ((s.process_structure_batch job_id structure_engine).1).findJob job_id
        = some j' →
      j' = finishedJob structure_engine.parse_document j ∧
      j'.results.length + j'.errors.length = 2 * n ∧
      j'.progress = n ∧ j'.status = .completed ∧
      (1 ≤ n → ¬ j'.progress = j'.results.length + j'.errors.length))
  ∧ (∀ j', ((s.process_vl_batch job_id vl_engine).1).findJob job_id = some j' →
      j' = finishedJob vl_engine.parse_document j ∧
      j'.results.length + j'.errors.length = 2 * n ∧
      j'.progress = n ∧ j'.status = .completed ∧
      (1 ≤ n → ¬ j'.progress = j'.results.length + j'.errors.length)) :=
  ⟨processBatchCore_reprocess _ s job_id n j hj hfl hcnt hprog,
   processBatchCore_reprocess _ s job_id n j hj hfl hcnt hprog,
   processBatchCore_reprocess _ s job_id n j hj hfl hcnt hprog⟩

/-- **C10** witness: reprocessing the completed one-file job of `demoS2`
doubles its records while progress stays 1. -/
theorem claim10_reprocessing_witness :
    ∃ j' : BatchJob Unit,
      ((demoS2.process_ocr_batch "batch_1" okEngine).1).findJob "batch_1" = some j' ∧
      j'.results.length + j'.errors.length = 2 * 1 ∧ j'.progress = 1 ∧
      j'.status = BatchStatus.completed ∧
      ¬ j'.progress = j'.results.length + j'.errors.length := by
  have hfind : ((demoS2.process_ocr_batch "batch_1" okEngine).1).findJob "batch_1"
      = some (finishedJob okEngine.detect_text demoJobDone) :=
    processBatchCore_findJob _ demoS2 "batch_1" demoJobDone (by decide)
  have h := (claim10_reprocessing demoS2 "batch_1" 1 demoJobDone (by decide)
      (by decide) (by decide) (by decide) (by decide) (by decide) okEngine
      okStructureEngine okVlEngine).1 (finishedJob okEngine.detect_text demoJobDone)
      hfind
  exact ⟨_, hfind, h.2.1, h.2.2.1, h.2.2.2.1, h.2.2.2.2 (by omega)⟩

end BatchProcessor
